import Mathlib

/-
Verification development for the browser-automation repository.

Shallow embedding of the Challenge Classification & Resolution Engine
(src/web/helpers/captchaHandler.js) and the Semantic Element Resolver
(src/helpers/aiMatcher.js).  Strings are modelled as List Char; the page,
the LLM channel and the clock are modelled as explicit oracle inputs.
-/

namespace BrowserAutomation

/-! ### Character-level utilities

These model the parts of JavaScript string/regex semantics that
src/helpers/aiMatcher.js and src/web/helpers/captchaHandler.js rely on.
Character classes are the ASCII classes of the regexes in the source
(`\d`, `\s`, `\w`), expressed numerically over `Char.toNat`. -/

/-- ASCII lower-casing, as JavaScript toLowerCase and the regex `i` flag
behave on the ASCII literals appearing in the source patterns. -/
def lowerC (c : Char) : Char :=
  if 65 ≤ c.toNat ∧ c.toNat ≤ 90 then Char.ofNat (c.toNat + 32) else c

/-- Regex class `\d` (ASCII digits 0-9). -/
def isDigitC (c : Char) : Bool :=
  48 ≤ c.toNat && c.toNat ≤ 57

/-- Regex class `\w` (ASCII letters, digits, underscore). -/
def wordC (c : Char) : Bool :=
  (48 ≤ c.toNat && c.toNat ≤ 57) || (65 ≤ c.toNat && c.toNat ≤ 90) ||
    (97 ≤ c.toNat && c.toNat ≤ 122) || c.toNat = 95

/-- Regex class `\s` restricted to the ASCII whitespace characters
(space, tab, line feed, vertical tab, form feed, carriage return). -/
def spaceC (c : Char) : Bool :=
  c.toNat = 32 || c.toNat = 9 || c.toNat = 10 || c.toNat = 11 ||
    c.toNat = 12 || c.toNat = 13

/-- Drop the maximal whitespace prefix (greedy `\s*`). -/
def dropSpaces : List Char → List Char
  | [] => []
  | c :: r => if spaceC c then dropSpaces r else c :: r

/-- Split the maximal digit prefix from the rest (greedy `\d+` capture). -/
def takeDigits : List Char → List Char × List Char
  | [] => ([], [])
  | c :: r =>
    if isDigitC c then
      let p := takeDigits r
      (c :: p.1, p.2)
    else ([], c :: r)

/-- Value of a digit string, as parseInt computes it on a `\d+` capture. -/
def digitsVal (ds : List Char) : Nat :=
  ds.foldl (fun a c => a * 10 + (c.toNat - 48)) 0

/-- Case-insensitive literal match at the current position: the pattern is
stored lower-case and each input character is lower-cased before comparing,
as the regex `i` flag does on ASCII.  Returns the remaining input. -/
def stripCI : List Char → List Char → Option (List Char)
  | [], s => some s
  | _ :: _, [] => none
  | p :: ps, c :: cs => if lowerC c = p then stripCI ps cs else none

/-- Case-sensitive literal match at the current position. -/
def stripCS : List Char → List Char → Option (List Char)
  | [], s => some s
  | _ :: _, [] => none
  | p :: ps, c :: cs => if c = p then stripCS ps cs else none

/-! ### src/helpers/aiMatcher.js — findBestMatch response parsing

The source tries, in order, the patterns
`/Index:\s*(\d+)/i`, `/Element\s*(\d+)/i`, `/Choose\s*element\s*(\d+)/i`,
`/Select\s*element\s*(\d+)/i`, and finally `/\b(\d+)\b/`.
Each of the first four is a sequence of case-insensitive literals separated
by `\s*` and terminated by `\s*(\d+)`; since `\s` and the first character of
each literal (and `\d`) are disjoint, greedy whitespace skipping is exact. -/

/-- Match the terminating `\s*(\d+)` of a label pattern. -/
def matchTail (s : List Char) : Option Nat :=
  let s1 := dropSpaces s
  let ds := (takeDigits s1).1
  if ds = [] then none else some (digitsVal ds)

/-- Match a sequence of case-insensitive literals separated by `\s*`,
terminated by `\s*(\d+)`, at the current position. -/
def matchLits : List (List Char) → List Char → Option Nat
  | [], s => matchTail s
  | l :: ls, s =>
    match stripCI l s with
    | none => none
    | some r => matchLits ls (dropSpaces r)

/-- Scan the input left to right for the first position where the label
pattern matches (regex search).  All patterns used start with a nonempty
literal, so no match is possible at the end of the input. -/
def scanPat (lits : List (List Char)) : List Char → Option Nat
  | [] => none
  | c :: rest =>
    match matchLits lits (c :: rest) with
    | some k => some k
    | none => scanPat lits rest

/-- Scan for `/\b(\d+)\b/`: the first maximal digit run whose neighbours on
both sides are not word characters (the run itself supplies the word side of
each boundary).  `prev` is the character before the current position. -/
def scanBareFrom (prev : Option Char) : List Char → Option Nat
  | [] => none
  | c :: rest =>
    if isDigitC c && (match prev with | none => true | some p => !(wordC p)) then
      let p := takeDigits (c :: rest)
      if (match p.2 with | [] => true | a :: _ => !(wordC a)) then
        some (digitsVal p.1)
      else scanBareFrom (some c) rest
    else scanBareFrom (some c) rest

/-- First bare integer in the response, the last-resort extractor. -/
def scanBare (s : List Char) : Option Nat :=
  scanBareFrom none s

/-- Literal of the pattern `/Index:\s*(\d+)/i`. -/
def litIndexColon : List Char := ['i', 'n', 'd', 'e', 'x', ':']

/-- Literal of the patterns mentioning an element. -/
def litElement : List Char := ['e', 'l', 'e', 'm', 'e', 'n', 't']

/-- Literal of the pattern `/Choose\s*element\s*(\d+)/i`. -/
def litChoose : List Char := ['c', 'h', 'o', 'o', 's', 'e']

/-- Literal of the pattern `/Select\s*element\s*(\d+)/i`. -/
def litSelect : List Char := ['s', 'e', 'l', 'e', 'c', 't']

/-- Index extraction of findBestMatch (aiMatcher.js lines 45-70): the four
label patterns are tried in order over the whole response, then the first
bare integer; the first pattern that yields a value wins. -/
def extractIndex (r : List Char) : Option Nat :=
  match scanPat [litIndexColon] r with
  | some k => some k
  | none =>
    match scanPat [litElement] r with
    | some k => some k
    | none =>
      match scanPat [litChoose, litElement] r with
      | some k => some k
      | none =>
        match scanPat [litSelect, litElement] r with
        | some k => some k
        | none => scanBare r

/-- The single failure the resolver throws (aiMatcher.js line 74:
could not determine best matching element). -/
inductive MatchFailure
  | couldNotDetermine
  deriving DecidableEq, Repr

/-- Index resolution of findBestMatch given the number of candidates and the
LLM response text: extraction, then the range check of line 72
(`bestMatchIndex === -1 || bestMatchIndex >= elementContexts.length`).
The sentinel -1 is modelled by `none`; the regexes capture `\d+`, so an
extracted value is never negative. -/
def findBestMatch (numCandidates : Nat) (response : List Char) :
    Except MatchFailure Nat :=
  match extractIndex response with
  | none => Except.error MatchFailure.couldNotDetermine
  | some k =>
    if numCandidates ≤ k then Except.error MatchFailure.couldNotDetermine
    else Except.ok k

/-- Observable steps of one findBestMatch call. -/
inductive MatcherEvent
  | builtPrompt
  | calledLLM
  | threwError
  | returnedIndex (i : Nat)
  deriving DecidableEq, Repr

/-- Control flow of findBestMatch (aiMatcher.js lines 13-103) for a candidate
list and an LLM response: the prompt is built (line 22) and the LLM is called
(line 25) unconditionally — there is no empty-candidates guard — and only
then is the response parsed and the range check applied.  `α` stands for the
opaque element handles. -/
def findBestMatchTrace {α : Type} (elements : List α) (response : List Char) :
    List MatcherEvent × Option Nat :=
  match findBestMatch elements.length response with
  | Except.error _ =>
    ([MatcherEvent.builtPrompt, MatcherEvent.calledLLM, MatcherEvent.threwError], none)
  | Except.ok k =>
    ([MatcherEvent.builtPrompt, MatcherEvent.calledLLM, MatcherEvent.returnedIndex k],
      some k)

/-! ### src/web/helpers/captchaHandler.js — analyzeImageChallenge

The vision grid analyzer (lines 1006-1127).  Only the response-processing
part has data flow; the request is an LLM call whose outcome is the input
here: either a transport error (the catch of lines 1123-1126) or the
response content string. -/

/-- The backtick character of markdown fences. -/
def backtick : Char := Char.ofNat 96

/-- Test for `includes` of three consecutive backticks (line 1079). -/
def hasTriple : List Char → Bool
  | a :: b :: c :: r =>
    if a = backtick && b = backtick && c = backtick then true
    else hasTriple (b :: c :: r)
  | _ => false

/-- Trim ASCII whitespace from both ends, as String.prototype.trim does on
ASCII content. -/
def trimChars (s : List Char) : List Char :=
  ((dropSpaces ((dropSpaces s).reverse)).reverse)

/-- A successful literal match consumes exactly the literal's length. -/
theorem length_of_stripCS : ∀ (pat s r : List Char),
    stripCS pat s = some r → r.length + pat.length = s.length := by
  intro pat
  induction pat with
  | nil => intro s r hr; simp [stripCS] at hr; simp [hr]
  | cons q qs ih =>
    intro s r hr
    cases s with
    | nil => simp [stripCS] at hr
    | cons c0 s0 =>
      by_cases hc : c0 = q
      · simp [stripCS, hc] at hr
        have := ih s0 r hr
        simp only [List.length_cons]
        omega
      · simp [stripCS, hc] at hr

/-- Dropping whitespace does not lengthen the input. -/
theorem length_dropSpaces (s : List Char) : (dropSpaces s).length ≤ s.length := by
  induction s with
  | nil => simp [dropSpaces]
  | cons c0 s0 ih =>
    by_cases hc : spaceC c0
    · simp [dropSpaces, hc]; omega
    · simp [dropSpaces, hc]

/-- Global removal of a literal followed by `\s*`
(the `replace(/xxx\s*/g, empty)` calls of line 1080): scan left to right;
at a match, drop the literal and the following whitespace and continue
scanning after it. -/
def removeFence (p : Char) (ps : List Char) (s : List Char) : List Char :=
  match s with
  | [] => []
  | c :: rest =>
    match h : stripCS (p :: ps) (c :: rest) with
    | some r2 => removeFence p ps (dropSpaces r2)
    | none => c :: removeFence p ps rest
termination_by s.length
decreasing_by
  · have h1 := length_of_stripCS (p :: ps) (c :: r) r2 h
    have h2 := length_dropSpaces r2
    simp only [List.length_cons] at h1 ⊢
    omega
  · simp only [List.length_cons]
    omega

/-- The fence-cleaning step of analyzeImageChallenge (lines 1076-1081):
trim, and if three backticks occur, remove every fence opening
(three backticks and the word json, plus trailing whitespace), then every
remaining fence, then trim again. -/
def cleanContent (content : List Char) : List Char :=
  let c0 := trimChars content
  if hasTriple c0 then
    trimChars
      (removeFence backtick [backtick, backtick]
        (removeFence backtick [backtick, backtick, 'j', 's', 'o', 'n'] c0))
  else c0

/-- Outcome of JSON.parse on the cleaned content, restricted to the
integer-valued responses the analyzer requests (plain arrays of integers,
or a bare integer): an array of numbers, a successfully parsed non-array,
or a parse failure. -/
inductive JsonOut
  | arrInts (xs : List Int)
  | nonArray
  | parseFail
  deriving DecidableEq, Repr

/-- Parse one JSON integer token (optional minus sign, then digits). -/
def parseIntTok : List Char → Option (Int × List Char)
  | '-' :: r =>
    let p := takeDigits r
    if p.1 = [] then none else some (-(digitsVal p.1 : Int), p.2)
  | s =>
    let p := takeDigits s
    if p.1 = [] then none else some ((digitsVal p.1 : Int), p.2)

/-- Parse the comma-separated items of a JSON array after the opening
bracket, fuelled by the input length: every recursive step consumes at least
the item and the separator, so the fuel used at the call site never runs
out. -/
def parseItems : Nat → List Char → Option (List Int × List Char)
  | 0, _ => none
  | fuel + 1, s =>
    let s1 := dropSpaces s
    match parseIntTok s1 with
    | none => none
    | some (v, r1) =>
      match dropSpaces r1 with
      | ',' :: r3 =>
        match parseItems fuel r3 with
        | none => none
        | some (vs, rest) => some (v :: vs, rest)
      | ']' :: r3 => some ([v], r3)
      | _ => none

/-- JSON.parse on the cleaned content, classified as the analyzer's code
does: an array (of integers), some other successfully parsed value, or a
thrown SyntaxError.  Trailing non-whitespace makes JSON.parse throw. -/
def parseJsonOutcome (s : List Char) : JsonOut :=
  match dropSpaces s with
  | '[' :: r =>
    match dropSpaces r with
    | ']' :: r2 =>
      if dropSpaces r2 = [] then JsonOut.arrInts [] else JsonOut.parseFail
    | r1 =>
      match parseItems (r1.length + 1) r1 with
      | some (vs, rest) =>
        if dropSpaces rest = [] then JsonOut.arrInts vs else JsonOut.parseFail
      | none => JsonOut.parseFail
  | s1 =>
    match parseIntTok s1 with
    | some (_, rest) =>
      if dropSpaces rest = [] then JsonOut.nonArray else JsonOut.parseFail
    | none => JsonOut.parseFail

/-- All maximal digit runs of the input, in order: the matches of the
global regex `/\d+/g` used by the malformed-response fallback (line 1109).
`acc` holds the current run, reversed. -/
def digitRunsGo (acc : List Char) : List Char → List (List Char)
  | [] => if acc = [] then [] else [acc.reverse]
  | c :: r =>
    if isDigitC c then digitRunsGo (c :: acc) r
    else if acc = [] then digitRunsGo [] r
    else acc.reverse :: digitRunsGo [] r

/-- Matches of `/\d+/g` over a string. -/
def digitRuns (s : List Char) : List (List Char) :=
  digitRunsGo [] s

/-- Response processing of analyzeImageChallenge (lines 1072-1126): on a
transport error the catch returns the empty list; otherwise the content is
trimmed and fence-cleaned, then JSON-parsed.  A parsed array is filtered to
numbers in `[0, totalTiles)`; a parsed non-array falls through to the final
`return []`; a parse failure extracts every integer of the text and filters
to the valid range, returning the result when nonempty and the empty list
otherwise. -/
def analyzeImageChallenge (llm : Except Unit (List Char)) (totalTiles : Nat) :
    List Nat :=
  match llm with
  | Except.error _ => []
  | Except.ok content =>
    let cleaned := cleanContent content
    match parseJsonOutcome cleaned with
    | JsonOut.arrInts xs =>
      ((xs.filter (fun i => decide (0 ≤ i) && decide (i < (totalTiles : Int)))).map
        Int.toNat)
    | JsonOut.nonArray => []
    | JsonOut.parseFail =>
      let nums := (digitRuns cleaned).map digitsVal
      let extracted := nums.filter (fun i => decide (i < totalTiles))
      if extracted = [] then [] else extracted

/-- The raw index candidates the model response carries, before the range
filter: the parsed array values on the JSON path, the extracted integers on
the malformed-text path, nothing otherwise.  Returned indices are always
among these (dropped, never clamped). -/
def analyzeRaw (llm : Except Unit (List Char)) : List Int :=
  match llm with
  | Except.error _ => []
  | Except.ok content =>
    let cleaned := cleanContent content
    match parseJsonOutcome cleaned with
    | JsonOut.arrInts xs => xs
    | JsonOut.nonArray => []
    | JsonOut.parseFail => (digitRuns cleaned).map (fun ds => (digitsVal ds : Int))

/-- Page-interaction outcomes of one handleRecaptchaV2ImageChallenge run
(lines 706-997), in the order the source consults them. -/
structure ImagePageOracle where
  hasApiKey : Bool
  challengeBecameVisible : Bool
  frameElementFound : Bool
  frameContentAccessible : Bool
  instruction : List Char
  gridTotalTiles : Nat
  screenshotOk : Bool
  llm : Except Unit (List Char)
  verifyClickOk : Bool
  solvedCheck : Bool

/-- Control flow of handleRecaptchaV2ImageChallenge: each guard returns
false on failure; an empty analysis result returns false (lines 858-863);
tile clicks only log on failure; after the verify click the final page
check decides the result. -/
def handleRecaptchaV2ImageChallenge (o : ImagePageOracle) : Bool :=
  if o.hasApiKey = false then false
  else if o.challengeBecameVisible = false then false
  else if o.frameElementFound = false then false
  else if o.frameContentAccessible = false then false
  else if trimChars o.instruction = [] then false
  else if o.screenshotOk = false then false
  else
    let solution := analyzeImageChallenge o.llm o.gridTotalTiles
    if solution = [] then false
    else if o.verifyClickOk = false then false
    else o.solvedCheck

/-! ### src/web/helpers/captchaHandler.js — classification

The fourteen CAPTCHA types (constructor order is the declaration order of
`CAPTCHA_TYPES`), the static success rates (two- to three-decimal values,
scaled by 1000 to naturals), the reCAPTCHA detector, and the
multiple-detection prioritisation of detectCaptchaType. -/

/-- The closed enumeration of CAPTCHA types (lines 14-29). -/
inductive CaptchaType
  | rv2Checkbox
  | rv2Image
  | rv2Invisible
  | rv3
  | hcaptcha
  | hcaptchaImage
  | funcaptcha
  | mathCaptcha
  | textCaptcha
  | jigsaw
  | slider
  | rotation
  | turnstile
  | custom
  deriving DecidableEq, Repr

/-- The initial success rates of lines 33-48, scaled by 1000 (all values in
the source have at most three decimals, also after the runtime adjustments
of learnFromAttempt, which move in steps of 0.01 and 0.005). -/
def successRates0 : CaptchaType → Nat
  | CaptchaType.rv2Checkbox => 980
  | CaptchaType.mathCaptcha => 950
  | CaptchaType.rv2Image => 900
  | CaptchaType.rv2Invisible => 880
  | CaptchaType.slider => 850
  | CaptchaType.textCaptcha => 850
  | CaptchaType.rv3 => 820
  | CaptchaType.jigsaw => 800
  | CaptchaType.turnstile => 780
  | CaptchaType.hcaptcha => 750
  | CaptchaType.hcaptchaImage => 720
  | CaptchaType.funcaptcha => 700
  | CaptchaType.rotation => 650
  | CaptchaType.custom => 500

/-- Page state detectRecaptcha (lines 218-291) inspects, one field per
selector family: the grecaptcha enterprise object, the invisible-reCAPTCHA
selectors, the checkbox-family selectors (none of whose selector strings
contain the words challenge or bframe, so any match returns the checkbox
type), and whether some challenge-iframe element is visible (positive
offset dimensions).  A present-but-hidden challenge iframe is logged and
skipped. -/
structure RecaptchaPage where
  grecaptchaEnterprise : Bool
  invisibleMarker : Bool
  checkboxMarker : Bool
  challengeVisible : Bool

/-- detectRecaptcha: v3 first, then invisible, then the checkbox family,
then a visible challenge iframe; a hidden challenge iframe detects
nothing. -/
def detectRecaptcha (p : RecaptchaPage) : Option CaptchaType :=
  if p.grecaptchaEnterprise then some CaptchaType.rv3
  else if p.invisibleMarker then some CaptchaType.rv2Invisible
  else if p.checkboxMarker then some CaptchaType.rv2Checkbox
  else if p.challengeVisible then some CaptchaType.rv2Image
  else none

/-- Stable descending insertion by success rate: an element is placed after
every earlier element of greater or equal rate, modelling the stable
JavaScript sort with comparator by descending rate (lines 207-209). -/
def insertDesc (rates : CaptchaType → Nat) (x : CaptchaType) :
    List CaptchaType → List CaptchaType
  | [] => [x]
  | y :: ys =>
    if rates x ≤ rates y then y :: insertDesc rates x ys
    else x :: y :: ys

/-- Stable sort by descending success rate. -/
def sortDesc (rates : CaptchaType → Nat) (l : List CaptchaType) :
    List CaptchaType :=
  l.foldl (fun acc x => insertDesc rates x acc) []

/-- The positive detections, in detector declaration order (lines 182-194):
detectRecaptcha on the modelled page, then the outcomes of the other seven
detectors (hCaptcha, FunCaptcha, math, text, puzzle, Cloudflare, custom) as
oracle values. -/
def validDetections (p : RecaptchaPage)
    (o2 o3 o4 o5 o6 o7 o8 : Option CaptchaType) : List CaptchaType :=
  ([detectRecaptcha p, o2, o3, o4, o5, o6, o7, o8]).filterMap id

/-- detectCaptchaType (lines 178-213): no detection yields none, a single
detection is returned, several are sorted by descending current success
rate and the first is returned. -/
def detectCaptchaType (rates : CaptchaType → Nat) (p : RecaptchaPage)
    (o2 o3 o4 o5 o6 o7 o8 : Option CaptchaType) : Option CaptchaType :=
  match validDetections p o2 o3 o4 o5 o6 o7 o8 with
  | [] => none
  | [t] => some t
  | t1 :: t2 :: r => (sortDesc rates (t1 :: t2 :: r)).head?

/-! ### src/web/helpers/captchaHandler.js — login-button check and the
solvers that rely on it -/

/-- One candidate login button as isLoginButtonEnabled (lines 1762-1788)
inspects it: its text (textContent or value) and the four enabledness
conditions. -/
structure Button where
  text : List Char
  disabled : Bool
  hasDisabledAttr : Bool
  pointerEventsNone : Bool
  classDisabled : Bool

/-- Case-sensitive test that the pattern occurs at the head of the input. -/
def startsWithCS : List Char → List Char → Bool
  | [], _ => true
  | _ :: _, [] => false
  | p :: ps, c :: cs => p = c && startsWithCS ps cs

/-- Substring occurrence test, as String.prototype.includes. -/
def hasSub (pat : List Char) : List Char → Bool
  | [] =>
    match pat with
    | [] => true
    | _ :: _ => false
  | c :: r => startsWithCS pat (c :: r) || hasSub pat r

/-- The login-button text test of line 1772: the lower-cased text includes
the letters l-o-g or s-i-g-n. -/
def isLoginText (t : List Char) : Bool :=
  hasSub ['l', 'o', 'g'] (t.map lowerC) || hasSub ['s', 'i', 'g', 'n'] (t.map lowerC)

/-- The enabledness test of lines 1775-1777. -/
def buttonEnabled (b : Button) : Bool :=
  !b.disabled && !b.hasDisabledAttr && !b.pointerEventsNone && !b.classDisabled

/-- isLoginButtonEnabled: return the enabledness of the first button whose
text includes log or sign; if no login button is found, default to
enabled (line 1786). -/
def isLoginButtonEnabled : List Button → Bool
  | [] => true
  | b :: r => if isLoginText b.text then buttonEnabled b else isLoginButtonEnabled r

/-- handleRecaptchaV2Invisible (lines 1133-1154): wait, then return exactly
the login-button check on the page's buttons. -/
def handleRecaptchaV2Invisible (btns : List Button) : Bool :=
  isLoginButtonEnabled btns

/-- handleRecaptchaV3 (lines 1160-1180): wait, then return exactly the
login-button check. -/
def handleRecaptchaV3 (btns : List Button) : Bool :=
  isLoginButtonEnabled btns

/-- handleCustomCaptcha (lines 1668-1700): click every captcha-like element
(only logging on failure), then return the login-button check on the
resulting page state. -/
def handleCustomCaptcha (btns : List Button) : Bool :=
  isLoginButtonEnabled btns

/-- Page-interaction outcomes of one handleSliderPuzzle run
(lines 1453-1533): whether the slider and its container are found, whether
an AI key is configured, the AI response content, and the page's buttons at
the i-th login-button check. -/
structure SliderPage where
  sliderFound : Bool
  containerFound : Bool
  hasApiKey : Bool
  aiContent : List Char
  buttonsAt : Nat → List Button

/-- parseInt on the trimmed AI response (line 1503): an optional minus sign
and leading digits; NaN is none. -/
def parseIntJS (s : List Char) : Option Int :=
  match trimChars s with
  | '-' :: r =>
    let p := takeDigits r
    if p.1 = [] then none else some (-(digitsVal p.1 : Int))
  | s1 =>
    let p := takeDigits s1
    if p.1 = [] then none else some ((digitsVal p.1 : Int))

/-- The blind-fallback positions of line 1510. -/
def sliderPositions : List Nat := [30, 50, 70, 80, 90]

/-- The blind fallback loop (lines 1510-1522): slide to each position and
check the login button; on an enabled check return true.  Falling off the
end of the loop reaches the unconditional `return true` of line 1527.
Returns the result together with the number of login-button checks
performed. -/
def sliderBlindLoop (p : SliderPage) (i : Nat) : List Nat → Bool × Nat
  | [] => (true, i)
  | _pos :: rest =>
    if isLoginButtonEnabled (p.buttonsAt i) then (true, i + 1)
    else sliderBlindLoop p (i + 1) rest

/-- handleSliderPuzzle: missing elements return false; with an AI key the
response percentage is parsed and the drag simulated, and control falls
directly to the `return true` of line 1527 with no login-button check;
without a key the blind loop runs.  Returns the result together with the
number of login-button checks performed. -/
def handleSliderPuzzle (p : SliderPage) : Bool × Nat :=
  if p.sliderFound = false then (false, 0)
  else if p.containerFound = false then (false, 0)
  else if p.hasApiKey then
    let _pct := parseIntJS p.aiContent
    (true, 0)
  else sliderBlindLoop p 0 sliderPositions

/-! ### src/web/helpers/captchaHandler.js — handleCaptcha

The retry/timeout loop (lines 55-172) and waitForManualCompletion
(lines 1734-1756).  The page and the clock are oracles: `detects n` is the
outcome of the n-th detectCaptchaType call (call 0 is the initial one of
line 66, call n for n ≥ 1 is the re-detection after attempt n), `solves n`
is the outcome of the solver dispatched on attempt n (a returned boolean,
or a thrown error caught at line 162), `present i` is the
captchaStillPresent evaluation at the i-th manual poll, and the `…Time`
functions are the wall-clock durations of those external operations.
Explicit waits advance the clock by their literal amounts. -/

/-- Outcome of one solver invocation: a returned boolean or a thrown
error. -/
inductive SolveOut
  | ok (b : Bool)
  | err
  deriving DecidableEq, Repr

/-- Observable events of one handleCaptcha run. -/
inductive LoopEvent
  | dispatch (attempt : Nat) (ty : CaptchaType)
  | retryWait (attempt : Nat) (ms : Nat)
  | redetect (attempt : Nat) (result : Option CaptchaType)
  deriving DecidableEq, Repr

/-- The page and clock oracles of one handleCaptcha run.  The in-loop
re-detection call after attempt n (lines 155-156) sits inside the try of
line 93 and may itself throw: `detectThrows n` records whether it does, in
which case `detects n` is unused and the catch of line 162 runs; its
duration is `detectTime n` either way. -/
structure LoopOracle where
  detects : Nat → Option CaptchaType
  detectTime : Nat → Nat
  detectThrows : Nat → Bool
  solves : Nat → SolveOut
  solveTime : Nat → Nat
  present : Nat → Bool
  presentTime : Nat → Nat

/-- Policy constant: maxAttempts (line 56). -/
def maxAttempts : Nat := 5

/-- Policy constant: retryInterval, 25 seconds (line 57). -/
def retryInterval : Nat := 25000

/-- Policy constant: totalTimeout, 2 minutes (line 58). -/
def totalTimeout : Nat := 120000

/-- Policy constant: the manual-completion timeout, 5 minutes (line 1738). -/
def manualTimeout : Nat := 300000

/-- Policy constant: the manual poll interval (line 1751). -/
def manualPollWait : Nat := 2000

/-- Policy constant: the settle delay before detection (line 63). -/
def settleWait : Nat := 2000

/-- Policy constant: the shorter wait after a thrown attempt (line 165). -/
def errorWait : Nat := 5000

/-- waitForManualCompletion's polling loop: while the elapsed time since
its own start is below the 5-minute timeout, evaluate the captcha-presence
check (advancing the clock by its duration) and return true when the
markup is gone, otherwise wait 2 seconds and poll again.  The loop is
fuelled: every iteration advances the clock by at least 2000 ms, so 151
units of fuel are more than the 150 polls any run can perform; the
fuel-exhaustion branch returns like the timeout exit and is unreachable
from the entry point (see waitForManualCompletion_fuel). -/
def manualLoop (o : LoopOracle) (startTime : Nat) :
    Nat → Nat → Nat → Bool × Nat
  | 0, _, now => (false, now)
  | fuel + 1, i, now =>
    if now - startTime < manualTimeout then
      let afterCheck := now + o.presentTime i
      if o.present i = false then (true, afterCheck)
      else manualLoop o startTime fuel (i + 1) (afterCheck + manualPollWait)
    else (false, now)

/-- Fuel of the manual loop: enough for the at most 150 polls of the
5-minute window. -/
def manualFuel : Nat := 151

/-- waitForManualCompletion (lines 1734-1756), entered at clock value
`now`, which becomes its own startTime (line 1737). -/
def waitForManualCompletion (o : LoopOracle) (now : Nat) : Bool × Nat :=
  manualLoop o now manualFuel 0 now

/-- The attempt loop of handleCaptcha (lines 84-168).  The for-loop
variable `attempt` runs from 1 while `attempt ≤ maxAttempts`; the fuel
argument equals `maxAttempts + 1 - attempt`, so exhaustion is exactly the
loop-condition exit.  Each iteration first applies the total-timeout break
of line 86, then dispatches the solver for `ty` — the type classified
before the loop, never updated (the switch of lines 96-143 reads the
`captchaType` of line 66).  A returned true returns true from
handleCaptcha.  A returned false waits 25 s and re-runs detection when the
attempt and remaining-time budgets of line 151 allow; the re-detection
sits inside the try of line 93, so when it throws, control reaches the
catch of line 162 and — the guard of line 151 having already required
`attempt < maxAttempts` — the same iteration also waits the 5-second error
wait of line 165; when it returns, its value is only logged
(lines 157-159) and is recorded as a redetect event.  A solver throw is
caught likewise and waits 5 s when attempts remain.  The first component
is true when the loop returned solved, false when it fell through to
manual completion. -/
def attemptLoop (o : LoopOracle) (ty : CaptchaType) (startTime : Nat) :
    Nat → Nat → Nat → List LoopEvent → Bool × Nat × List LoopEvent
  | 0, _, now, evs => (false, now, evs)
  | fuel + 1, attempt, now, evs =>
    if totalTimeout < now - startTime then (false, now, evs)
    else
      let evs1 := evs ++ [LoopEvent.dispatch attempt ty]
      match o.solves attempt with
      | SolveOut.ok true => (true, now + o.solveTime attempt, evs1)
      | SolveOut.ok false =>
        let now1 := now + o.solveTime attempt
        if attempt < maxAttempts ∧ now1 - startTime < totalTimeout - retryInterval then
          let now2 := now1 + retryInterval
          let now3 := now2 + o.detectTime attempt
          if o.detectThrows attempt then
            attemptLoop o ty startTime fuel (attempt + 1) (now3 + errorWait)
              (evs1 ++ [LoopEvent.retryWait attempt retryInterval,
                LoopEvent.retryWait attempt errorWait])
          else
            attemptLoop o ty startTime fuel (attempt + 1) now3
              (evs1 ++ [LoopEvent.retryWait attempt retryInterval,
                LoopEvent.redetect attempt (o.detects attempt)])
        else attemptLoop o ty startTime fuel (attempt + 1) now1 evs1
      | SolveOut.err =>
        let now1 := now + o.solveTime attempt
        if attempt < maxAttempts then
          attemptLoop o ty startTime fuel (attempt + 1) (now1 + errorWait)
            (evs1 ++ [LoopEvent.retryWait attempt errorWait])
        else attemptLoop o ty startTime fuel (attempt + 1) now1 evs1

/-- handleCaptcha (lines 55-172): settle for 2 s, run detection once; no
detection returns true immediately; otherwise record startTime and run the
attempt loop from attempt 1; if it did not solve, fall back to manual
completion, whose own 5-minute window starts when it is entered.  Returns
the boolean result, the final clock value (the run's wall-clock duration,
starting from 0), and the event trace. -/
def handleCaptcha (o : LoopOracle) : Bool × Nat × List LoopEvent :=
  let now1 := settleWait + o.detectTime 0
  match o.detects 0 with
  | none => (true, now1, [])
  | some ty =>
    match attemptLoop o ty now1 maxAttempts 1 now1 [] with
    | (true, t, evs) => (true, t, evs)
    | (false, t, evs) =>
      let m := waitForManualCompletion o t
      (m.1, m.2, evs)

/-- Number of solver dispatches in a trace. -/
def countDispatch (evs : List LoopEvent) : Nat :=
  evs.countP (fun e =>
    match e with
    | LoopEvent.dispatch _ _ => true
    | _ => false)

/-! ### Helper lemmas -/

/-- A digit character is not whitespace. -/
theorem spaceC_of_digit (c : Char) (h : isDigitC c = true) : spaceC c = false := by
  simp [isDigitC] at h
  simp [spaceC]
  omega

/-- Whitespace skipping ignores a leading space. -/
theorem dropSpaces_space (x : List Char) : dropSpaces (' ' :: x) = dropSpaces x := by
  simp [dropSpaces, (by decide : spaceC ' ' = true)]

/-- Whitespace skipping stops at a digit. -/
theorem dropSpaces_digit_head (d : Char) (x : List Char) (h : isDigitC d = true) :
    dropSpaces (d :: x) = d :: x := by
  simp [dropSpaces, spaceC_of_digit d h]

/-- The greedy digit capture takes exactly an all-digit block followed by a
non-digit (or nothing). -/
theorem takeDigits_all (ds post : List Char)
    (hdig : ∀ c ∈ ds, isDigitC c = true)
    (hpost : ∀ c, post.head? = some c → isDigitC c = false) :
    takeDigits (ds ++ post) = (ds, post) := by
  induction ds with
  | nil =>
    cases post with
    | nil => simp [takeDigits]
    | cons c r =>
      have hc := hpost c (by simp)
      simp [takeDigits, hc]
  | cons d ds' ih =>
    have hd := hdig d (by simp)
    have ih' := ih (fun c hc => hdig c (by simp [hc]))
    simp [takeDigits, hd, ih']

/-- Scanning for the Index label skips any prefix containing no letter i
(upper or lower case): the pattern cannot start inside such a prefix. -/
theorem scanPat_index_append (pre s : List Char)
    (hpre : ∀ c ∈ pre, lowerC c ≠ 'i') :
    scanPat [litIndexColon] (pre ++ s) = scanPat [litIndexColon] s := by
  induction pre with
  | nil => simp
  | cons c r ih =>
    have hc : lowerC c ≠ 'i' := hpre c (by simp)
    have hm : matchLits [litIndexColon] (c :: (r ++ s)) = none := by
      simp [matchLits, litIndexColon, stripCI, hc]
    have ih' := ih (fun c0 hc0 => hpre c0 (by simp [hc0]))
    simp only [List.cons_append, scanPat, List.append_eq, hm]
    exact ih'

/-- The literal text Index-colon-space followed by a digit block matches the
first label pattern and captures the block's value. -/
theorem matchLits_index_tag (ds post : List Char) (hne : ds ≠ [])
    (hdig : ∀ c ∈ ds, isDigitC c = true)
    (hpost : ∀ c, post.head? = some c → isDigitC c = false) :
    matchLits [litIndexColon] ('I' :: 'n' :: 'd' :: 'e' :: 'x' :: ':' :: ' ' :: (ds ++ post))
      = some (digitsVal ds) := by
  have e1 : stripCI litIndexColon
      ('I' :: 'n' :: 'd' :: 'e' :: 'x' :: ':' :: ' ' :: (ds ++ post))
      = some (' ' :: (ds ++ post)) := rfl
  cases ds with
  | nil => exact absurd rfl hne
  | cons d ds' =>
    have hd := hdig d (by simp)
    have hdrop : dropSpaces (' ' :: ((d :: ds') ++ post)) = (d :: ds') ++ post := by
      rw [dropSpaces_space, List.cons_append]
      exact dropSpaces_digit_head d (ds' ++ post) hd
    have htake := takeDigits_all (d :: ds') post hdig hpost
    have h2 : matchTail ((d :: ds') ++ post) = some (digitsVal (d :: ds')) := by
      have hdrop2 : dropSpaces ((d :: ds') ++ post) = (d :: ds') ++ post := by
        rw [List.cons_append]
        exact dropSpaces_digit_head d (ds' ++ post) hd
      simp only [matchTail, hdrop2, htake]
      simp
    calc matchLits [litIndexColon]
          ('I' :: 'n' :: 'd' :: 'e' :: 'x' :: ':' :: ' ' :: ((d :: ds') ++ post))
        = matchTail (dropSpaces (' ' :: ((d :: ds') ++ post))) := by
          simp only [matchLits, e1]
      _ = matchTail ((d :: ds') ++ post) := by rw [hdrop]
      _ = some (digitsVal (d :: ds')) := h2

/-! ### Claims C3, C4, C9 — the Semantic Element Resolver -/

/-- The claim's literal response fragment: the text Index-colon-space. -/
def indexTag : List Char := ['I', 'n', 'd', 'e', 'x', ':', ' ']

/-- Claim C3: for every non-empty candidate list of length n and every
response containing the text Index-colon-space followed by the digits of k
(with nothing before it that could start the Index label, and no digit
immediately after) with k below n, the resolver returns k; and index
extraction tries the label patterns in order, the exact Index label first —
when it yields a value, that value wins regardless of the other
patterns. -/
theorem claim_c3 :
    (∀ (n k : Nat) (pre ds post : List Char),
      (∀ c ∈ pre, lowerC c ≠ 'i') →
      ds ≠ [] → (∀ c ∈ ds, isDigitC c = true) → digitsVal ds = k →
      (∀ c, post.head? = some c → isDigitC c = false) →
      k < n →
      findBestMatch n (pre ++ indexTag ++ ds ++ post) = Except.ok k)
    ∧ (∀ (r : List Char) (k : Nat), scanPat [litIndexColon] r = some k →
        extractIndex r = some k) := by
  have hfirst : ∀ (r : List Char) (k : Nat), scanPat [litIndexColon] r = some k →
      extractIndex r = some k := by
    intro r k h
    simp [extractIndex, h]
  refine ⟨?_, hfirst⟩
  intro n k pre ds post hpre hne hdig hval hpost hk
  have hassoc : pre ++ indexTag ++ ds ++ post
      = pre ++ (indexTag ++ (ds ++ post)) := by simp
  rw [hassoc]
  have hscan : scanPat [litIndexColon] (pre ++ (indexTag ++ (ds ++ post))) = some k := by
    rw [scanPat_index_append pre _ hpre]
    have htag : indexTag ++ (ds ++ post)
        = 'I' :: 'n' :: 'd' :: 'e' :: 'x' :: ':' :: ' ' :: (ds ++ post) := rfl
    rw [htag]
    have hm := matchLits_index_tag ds post hne hdig hpost
    simp [scanPat, hm, hval]
  have hex := hfirst _ k hscan
  simp [findBestMatch, hex, Nat.not_le.mpr hk]

/-- Witness for C3: a response whose earlier text even matches the
lower-priority Element pattern with a different number, yet the Index label
wins and yields index 1 of 3 candidates. -/
theorem claim_c3_witness :
    findBestMatch 3
      (['E', 'l', 'e', 'm', 'e', 'n', 't', ' ', '2', ' '] ++ indexTag ++ ['1'] ++
        [' ', 'y', 'e', 's']) = Except.ok 1 :=
  claim_c3.1 3 1 ['E', 'l', 'e', 'm', 'e', 'n', 't', ' ', '2', ' '] ['1']
    [' ', 'y', 'e', 's'] (by decide) (by decide) (by decide) (by decide)
    (by decide) (by decide)

/-- Claim C4: the resolver returns an index exactly when extraction yields a
value inside the candidate range; an extracted value at or above the
candidate count, or a response with no extractable value, fails with the
resolution error and is never clamped into range (the regex captures are
digit strings, so a negative value cannot be extracted at all; the source's
minus-one sentinel is the none case). -/
theorem claim_c4 (n : Nat) (resp : List Char) (k : Nat) :
    findBestMatch n resp = Except.ok k ↔ extractIndex resp = some k ∧ k < n := by
  unfold findBestMatch
  cases h : extractIndex resp with
  | none => simp
  | some j =>
    by_cases hj : n ≤ j
    · simp only [if_pos hj]
      constructor
      · intro hc; exact absurd hc (by simp)
      · rintro ⟨hjk, hkn⟩
        have : j = k := by simpa using hjk
        omega
    · simp only [if_neg hj]
      constructor
      · intro hc
        have : j = k := by simpa using hc
        subst this
        exact ⟨rfl, by omega⟩
      · rintro ⟨hjk, _⟩
        have : j = k := by simpa using hjk
        simp [this]

/-- Counterexample for C9: with an empty candidate list and the response
text Index-colon-space-zero, the resolver's run still contains the LLM
call (and the prompt build) before failing — it does not fail fast, and
there is no dedicated empty-candidates error in the source. -/
theorem claim_c9_counterexample :
    MatcherEvent.calledLLM ∈
      (findBestMatchTrace ([] : List Unit) ['I', 'n', 'd', 'e', 'x', ':', ' ', '0']).1
    ∧ (findBestMatchTrace ([] : List Unit) ['I', 'n', 'd', 'e', 'x', ':', ' ', '0']).2
        = none := by
  constructor
  · decide
  · decide

/-- Claim C9 (amended): with an empty candidate list the resolver builds the
prompt and issues the LLM call anyway, and then always throws the generic
resolution error — any extracted index fails the range check against a
candidate count of zero, and an unextractable response fails too — so it
never returns a result. -/
theorem claim_c9_amended {α : Type} (resp : List Char) :
    (findBestMatchTrace ([] : List α) resp).1
      = [MatcherEvent.builtPrompt, MatcherEvent.calledLLM, MatcherEvent.threwError]
    ∧ (findBestMatchTrace ([] : List α) resp).2 = none := by
  have herr : findBestMatch 0 resp = Except.error MatchFailure.couldNotDetermine := by
    unfold findBestMatch
    cases h : extractIndex resp with
    | none => rfl
    | some k => simp
  constructor
  · simp [findBestMatchTrace, herr]
  · simp [findBestMatchTrace, herr]

/-! ### Claim C2 — classifier prioritisation -/

/-- Membership in a descending insertion. -/
theorem mem_insertDesc (rates : CaptchaType → Nat) (x z : CaptchaType) :
    ∀ l : List CaptchaType, z ∈ insertDesc rates x l ↔ z = x ∨ z ∈ l := by
  intro l
  induction l with
  | nil => simp [insertDesc]
  | cons y ys ih =>
    by_cases hc : rates x ≤ rates y
    · simp only [insertDesc, if_pos hc, List.mem_cons, ih]
      tauto
    · simp only [insertDesc, if_neg hc, List.mem_cons]

/-- Descending insertion preserves descending pairwise order. -/
theorem pairwise_insertDesc (rates : CaptchaType → Nat) (x : CaptchaType) :
    ∀ l : List CaptchaType, l.Pairwise (fun a b => rates b ≤ rates a) →
      (insertDesc rates x l).Pairwise (fun a b => rates b ≤ rates a) := by
  intro l
  induction l with
  | nil => simp [insertDesc]
  | cons y ys ih =>
    intro h
    rw [List.pairwise_cons] at h
    obtain ⟨h1, h2⟩ := h
    by_cases hc : rates x ≤ rates y
    · simp only [insertDesc, if_pos hc, List.pairwise_cons]
      refine ⟨?_, ih h2⟩
      intro z hz
      rcases (mem_insertDesc rates x z ys).mp hz with hzx | hzy
      · subst hzx; exact hc
      · exact h1 z hzy
    · simp only [insertDesc, if_neg hc, List.pairwise_cons]
      refine ⟨?_, ?_⟩
      · intro z hz
        rcases List.mem_cons.mp hz with hzy | hzys
        · subst hzy; omega
        · have := h1 z hzys; omega
      · exact ⟨h1, h2⟩

/-- Membership through the fold of descending insertions. -/
theorem mem_sortDesc_fold (rates : CaptchaType → Nat) :
    ∀ (l acc : List CaptchaType) (z : CaptchaType),
      z ∈ l.foldl (fun a x => insertDesc rates x a) acc ↔ z ∈ acc ∨ z ∈ l := by
  intro l
  induction l with
  | nil => simp
  | cons x xs ih =>
    intro acc z
    simp only [List.foldl_cons, ih, mem_insertDesc, List.mem_cons]
    tauto

/-- The fold of descending insertions is pairwise descending. -/
theorem pairwise_sortDesc_fold (rates : CaptchaType → Nat) :
    ∀ (l acc : List CaptchaType),
      acc.Pairwise (fun a b => rates b ≤ rates a) →
      (l.foldl (fun a x => insertDesc rates x a) acc).Pairwise
        (fun a b => rates b ≤ rates a) := by
  intro l
  induction l with
  | nil => intro acc h; simpa
  | cons x xs ih =>
    intro acc h
    exact ih (insertDesc rates x acc) (pairwise_insertDesc rates x acc h)

/-- The head of the descending sort dominates every input element. -/
theorem sortDesc_head_max (rates : CaptchaType → Nat) (l : List CaptchaType)
    (h0 : CaptchaType) (tl : List CaptchaType)
    (hs : sortDesc rates l = h0 :: tl) :
    h0 ∈ l ∧ ∀ z ∈ l, rates z ≤ rates h0 := by
  have hmem : ∀ z, z ∈ sortDesc rates l ↔ z ∈ l := by
    intro z
    have := mem_sortDesc_fold rates l [] z
    simpa [sortDesc] using this
  have hpw : (sortDesc rates l).Pairwise (fun a b => rates b ≤ rates a) :=
    pairwise_sortDesc_fold rates l [] (by simp)
  rw [hs, List.pairwise_cons] at hpw
  constructor
  · exact (hmem h0).mp (by simp [hs])
  · intro z hz
    have hz2 : z ∈ h0 :: tl := by rw [← hs]; exact (hmem z).mpr hz
    rcases List.mem_cons.mp hz2 with hzh | hzt
    · subst hzh; exact Nat.le_refl _
    · exact hpw.1 z hzt

/-- Claim C2: when the reCAPTCHA v3 and invisible checks are negative and
a checkbox-family selector matches, detectRecaptcha returns the checkbox
type whether or not a challenge iframe exists and whatever its visibility
— in particular a page showing both the checkbox and a hidden image
challenge classifies as the checkbox; and whenever detectCaptchaType
returns a type from several simultaneous detections, that type carries the
highest current success-rate weight among all detections. -/
theorem claim_c2 :
    (∀ p : RecaptchaPage, p.grecaptchaEnterprise = false →
      p.invisibleMarker = false → p.checkboxMarker = true →
      detectRecaptcha p = some CaptchaType.rv2Checkbox)
    ∧ (∀ (rates : CaptchaType → Nat) (p : RecaptchaPage)
        (o2 o3 o4 o5 o6 o7 o8 : Option CaptchaType) (t : CaptchaType),
        detectCaptchaType rates p o2 o3 o4 o5 o6 o7 o8 = some t →
        t ∈ validDetections p o2 o3 o4 o5 o6 o7 o8 ∧
          ∀ x ∈ validDetections p o2 o3 o4 o5 o6 o7 o8, rates x ≤ rates t) := by
  constructor
  · intro p h1 h2 h3
    simp [detectRecaptcha, h1, h2, h3]
  · intro rates p o2 o3 o4 o5 o6 o7 o8 t h
    rcases hv : validDetections p o2 o3 o4 o5 o6 o7 o8 with _ | ⟨t1, _ | ⟨t2, r⟩⟩
    · simp only [detectCaptchaType, hv] at h
      exact absurd h (by simp)
    · simp only [detectCaptchaType, hv] at h
      have ht : t1 = t := by simpa using h
      subst ht
      simp
    · simp only [detectCaptchaType, hv] at h
      cases hs : sortDesc rates (t1 :: t2 :: r) with
      | nil => rw [hs] at h; exact absurd h (by simp)
      | cons h0 tl =>
        rw [hs] at h
        have ht : h0 = t := by simpa using h
        subst ht
        exact sortDesc_head_max rates (t1 :: t2 :: r) h0 tl hs

/-- Witness for C2: a page with the checkbox family matched (and a hidden
challenge iframe), classified alongside a simultaneous hCaptcha detection
under the initial rates: the checkbox is detected and the returned type
dominates all detections. -/
theorem claim_c2_witness :
    detectRecaptcha ⟨false, false, true, false⟩ = some CaptchaType.rv2Checkbox
    ∧ (CaptchaType.rv2Checkbox ∈
        validDetections ⟨false, false, true, false⟩ (some CaptchaType.hcaptcha)
          none none none none none none
      ∧ ∀ x ∈ validDetections ⟨false, false, true, false⟩
          (some CaptchaType.hcaptcha) none none none none none none,
          successRates0 x ≤ successRates0 CaptchaType.rv2Checkbox) :=
  ⟨claim_c2.1 ⟨false, false, true, false⟩ rfl rfl rfl,
    claim_c2.2 successRates0 ⟨false, false, true, false⟩
      (some CaptchaType.hcaptcha) none none none none none none
      CaptchaType.rv2Checkbox (by decide)⟩

/-! ### Claim C10 — the login-button blocking-condition check -/

/-- Claim C10: isLoginButtonEnabled returns true on any page with no
button whose text includes log or sign (the no-login-button default of
line 1786), and consequently the solvers that verify through this check —
invisible reCAPTCHA, reCAPTCHA v3, the custom handler, and the slider
blind fallback — report success on any such page once their waits
complete. -/
theorem claim_c10 :
    (∀ btns : List Button, (∀ b ∈ btns, isLoginText b.text = false) →
      isLoginButtonEnabled btns = true)
    ∧ (∀ btns : List Button, (∀ b ∈ btns, isLoginText b.text = false) →
      handleRecaptchaV2Invisible btns = true ∧ handleRecaptchaV3 btns = true ∧
        handleCustomCaptcha btns = true)
    ∧ (∀ p : SliderPage, p.sliderFound = true → p.containerFound = true →
      p.hasApiKey = false →
      (∀ i, ∀ b ∈ p.buttonsAt i, isLoginText b.text = false) →
      (handleSliderPuzzle p).1 = true) := by
  have h1 : ∀ btns : List Button, (∀ b ∈ btns, isLoginText b.text = false) →
      isLoginButtonEnabled btns = true := by
    intro btns h
    induction btns with
    | nil => rfl
    | cons b r ih =>
      have hb := h b (by simp)
      simp only [isLoginButtonEnabled, hb]
      simp only [Bool.false_eq_true, if_false]
      exact ih (fun b0 hb0 => h b0 (by simp [hb0]))
  refine ⟨h1, ?_, ?_⟩
  · intro btns h
    exact ⟨h1 btns h, h1 btns h, h1 btns h⟩
  · intro p hs hc hk h
    have hl := h1 (p.buttonsAt 0) (h 0)
    simp [handleSliderPuzzle, hs, hc, hk, sliderPositions, sliderBlindLoop, hl]

/-- Witness for C10: a page whose only button says Submit. -/
theorem claim_c10_witness :
    isLoginButtonEnabled
        [⟨['S', 'u', 'b', 'm', 'i', 't'], true, true, false, false⟩] = true
    ∧ handleRecaptchaV2Invisible
        [⟨['S', 'u', 'b', 'm', 'i', 't'], true, true, false, false⟩] = true
    ∧ (handleSliderPuzzle
        ⟨true, true, false, [],
          fun _ => [⟨['S', 'u', 'b', 'm', 'i', 't'], true, true, false, false⟩]⟩).1
        = true :=
  ⟨claim_c10.1 _ (by decide),
    (claim_c10.2.1 _ (by decide)).1,
    claim_c10.2.2 ⟨true, true, false, [],
      fun _ => [⟨['S', 'u', 'b', 'm', 'i', 't'], true, true, false, false⟩]⟩
      rfl rfl rfl
      (fun _ => (by decide :
        ∀ b ∈ [(⟨['S', 'u', 'b', 'm', 'i', 't'], true, true, false, false⟩ : Button)],
          isLoginText b.text = false))⟩

/-! ### Claim C5 — grid-analysis range discipline -/

/-- Claim C5: every index the vision-grid analyzer returns is below
totalTiles, and is literally one of the values carried by the raw model
response (dropped when out of range, never clamped); and an empty analysis
result makes the image-grid solver return false rather than throw. -/
theorem claim_c5 :
    (∀ (llm : Except Unit (List Char)) (total : Nat) (i : Nat),
      i ∈ analyzeImageChallenge llm total →
      i < total ∧ (i : Int) ∈ analyzeRaw llm)
    ∧ (∀ o : ImagePageOracle,
      analyzeImageChallenge o.llm o.gridTotalTiles = [] →
      handleRecaptchaV2ImageChallenge o = false) := by
  constructor
  · intro llm total i hi
    cases llm with
    | error e => simp [analyzeImageChallenge] at hi
    | ok content =>
      simp only [analyzeImageChallenge, analyzeRaw] at hi ⊢
      rcases hp : parseJsonOutcome (cleanContent content) with xs | _ | _
      · rw [hp] at hi
        replace hi : i ∈ (xs.filter
            (fun j => decide (0 ≤ j) && decide (j < (total : Int)))).map Int.toNat := hi
        simp only [List.mem_map, List.mem_filter] at hi
        obtain ⟨j, ⟨hjx, hjp⟩, hji⟩ := hi
        simp only [Bool.and_eq_true, decide_eq_true_eq] at hjp
        refine ⟨by omega, ?_⟩
        show (i : Int) ∈ xs
        have hij : (i : Int) = j := by omega
        rw [hij]
        exact hjx
      · rw [hp] at hi
        replace hi : i ∈ ([] : List Nat) := hi
        simp at hi
      · rw [hp] at hi
        replace hi : i ∈ (if ((digitRuns (cleanContent content)).map digitsVal).filter
            (fun k => decide (k < total)) = [] then ([] : List Nat)
          else ((digitRuns (cleanContent content)).map digitsVal).filter
            (fun k => decide (k < total))) := hi
        by_cases he : ((digitRuns (cleanContent content)).map digitsVal).filter
            (fun k => decide (k < total)) = []
        · rw [if_pos he] at hi
          simp at hi
        · rw [if_neg he] at hi
          simp only [List.mem_filter, List.mem_map, decide_eq_true_eq] at hi
          obtain ⟨⟨ds, hds, hdv⟩, hlt⟩ := hi
          refine ⟨hlt, ?_⟩
          show (i : Int) ∈ (digitRuns (cleanContent content)).map
            (fun ds => (digitsVal ds : Int))
          simp only [List.mem_map]
          exact ⟨ds, hds, by rw [hdv]⟩
  · intro o h
    simp [handleRecaptchaV2ImageChallenge, h]

/-- Witness for C5: the response array 0, 9, 4 against a 9-tile grid keeps
0 and 4 (9 is dropped), and an empty-array response makes the solver
fail. -/
theorem claim_c5_witness :
    (4 < 9 ∧ ((4 : Nat) : Int) ∈ analyzeRaw (Except.ok ['[', '0', ',', ' ', '9', ',', ' ', '4', ']']))
    ∧ handleRecaptchaV2ImageChallenge
        ⟨true, true, true, true, ['g', 'o'], 9, true, Except.ok ['[', ']'], true, true⟩
        = false :=
  ⟨claim_c5.1 (Except.ok ['[', '0', ',', ' ', '9', ',', ' ', '4', ']']) 9 4 (by decide),
    claim_c5.2 ⟨true, true, true, true, ['g', 'o'], 9, true, Except.ok ['[', ']'], true, true⟩
      (by decide)⟩

/-! ### Claim C7 — verification after solver success -/

/-- A successful solver return inside the attempt budget returns true
immediately: the loop body of lines 145-148 contains no re-check of the
blocking condition between the solver's return and the loop's own
return. -/
theorem attemptLoop_succ_ok_true (o : LoopOracle) (ty : CaptchaType)
    (s fuel attempt now : Nat) (evs : List LoopEvent)
    (hbreak : ¬ (totalTimeout < now - s))
    (hok : o.solves attempt = SolveOut.ok true) :
    attemptLoop o ty s (fuel + 1) attempt now evs
      = (true, now + o.solveTime attempt, evs ++ [LoopEvent.dispatch attempt ty]) := by
  simp [attemptLoop, hbreak, hok]

/-- Counterexample for C7: a slider page with an AI key whose login button
is disabled throughout — the blocking condition never clears — yet
handleSliderPuzzle reports success with zero login-button checks (the AI
path falls to the unconditional `return true` of line 1527). -/
theorem claim_c7_counterexample :
    handleSliderPuzzle
        ⟨true, true, true, ['4', '2'],
          fun _ => [⟨['L', 'o', 'g', 'i', 'n'], true, true, false, false⟩]⟩
      = (true, 0)
    ∧ isLoginButtonEnabled
        [⟨['L', 'o', 'g', 'i', 'n'], true, true, false, false⟩] = false := by
  constructor
  · decide
  · decide

/-- Claim C7 (amended): the resolution loop itself performs no
verification — when the dispatched solver reports success on the first
attempt, handleCaptcha returns solved with a trace containing exactly that
dispatch and nothing else; verification is left to the individual solvers,
and the slider solver's AI path reports success without any login-button
check. -/
theorem claim_c7_amended :
    (∀ (o : LoopOracle) (ty : CaptchaType), o.detects 0 = some ty →
      o.solves 1 = SolveOut.ok true →
      (handleCaptcha o).1 = true
        ∧ (handleCaptcha o).2.2 = [LoopEvent.dispatch 1 ty])
    ∧ (∀ p : SliderPage, p.sliderFound = true → p.containerFound = true →
      p.hasApiKey = true → handleSliderPuzzle p = (true, 0)) := by
  constructor
  · intro o ty h1 h2
    have efuel : maxAttempts = 4 + 1 := rfl
    have hbreak : ¬ (totalTimeout <
        (settleWait + o.detectTime 0) - (settleWait + o.detectTime 0)) := by
      simp [totalTimeout]
    have hloop := attemptLoop_succ_ok_true o ty (settleWait + o.detectTime 0) 4 1
      (settleWait + o.detectTime 0) [] hbreak h2
    rw [← efuel] at hloop
    simp [handleCaptcha, h1, hloop]
  · intro p hs hc hk
    simp [handleSliderPuzzle, hs, hc, hk]

/-- Witness for C7's amended claim: a run whose solver succeeds at once,
and a found slider with an AI key. -/
theorem claim_c7_witness :
    (handleCaptcha ⟨fun _ => some CaptchaType.slider, fun _ => 0, fun _ => false,
        fun _ => SolveOut.ok true, fun _ => 0, fun _ => true, fun _ => 0⟩).1 = true
    ∧ handleSliderPuzzle ⟨true, true, true, [], fun _ => []⟩ = (true, 0) :=
  ⟨(claim_c7_amended.1 ⟨fun _ => some CaptchaType.slider, fun _ => 0, fun _ => false,
      fun _ => SolveOut.ok true, fun _ => 0, fun _ => true, fun _ => 0⟩
      CaptchaType.slider rfl rfl).1,
    claim_c7_amended.2 ⟨true, true, true, [], fun _ => []⟩ rfl rfl rfl⟩

/-! ### Loop lemmas shared by claims C1, C6 and C8 -/

/-- The manual loop's result is unchanged by adding fuel once the remaining
window fits in the poll budget the fuel provides. -/
theorem manualLoop_fuel_stable (o : LoopOracle) (s : Nat) :
    ∀ (fuel i now : Nat), s + manualTimeout ≤ now + manualPollWait * fuel →
      manualLoop o s fuel i now = manualLoop o s (fuel + 1) i now := by
  intro fuel
  induction fuel with
  | zero =>
    intro i now hle
    have hcond : ¬ (now - s < manualTimeout) := by
      simp only [manualPollWait] at hle
      omega
    simp only [manualLoop, if_neg hcond]
  | succ fuel ih =>
    intro i now hle
    simp only [manualLoop]
    by_cases hcond : now - s < manualTimeout
    · rw [if_pos hcond, if_pos hcond]
      by_cases hpres : o.present i = false
      · rw [if_pos hpres, if_pos hpres]
      · rw [if_neg hpres, if_neg hpres]
        apply ih
        simp only [manualPollWait] at hle ⊢
        omega
    · rw [if_neg hcond, if_neg hcond]

/-- The entry point's fuel of 151 is enough: any further fuel gives the
same run, so the fuel-exhaustion branch is unreachable from
waitForManualCompletion. -/
theorem waitForManualCompletion_fuel (o : LoopOracle) (now : Nat) :
    ∀ k : Nat, manualLoop o now (manualFuel + k) 0 now
      = waitForManualCompletion o now := by
  intro k
  induction k with
  | zero => rfl
  | succ k ih =>
    rw [← ih]
    have h := manualLoop_fuel_stable o now (manualFuel + k) 0 now
      (by simp only [manualFuel, manualTimeout, manualPollWait]; omega)
    exact h.symm

/-- While the captcha markup stays present, the manual loop returns
false. -/
theorem manualLoop_present (o : LoopOracle) (s : Nat)
    (hp : ∀ i, o.present i = true) :
    ∀ (fuel i now : Nat), (manualLoop o s fuel i now).1 = false := by
  intro fuel
  induction fuel with
  | zero => intro i now; rfl
  | succ fuel ih =>
    intro i now
    simp only [manualLoop]
    by_cases hcond : now - s < manualTimeout
    · rw [if_pos hcond]
      have : ¬ (o.present i = false) := by simp [hp i]
      rw [if_neg this]
      exact ih (i + 1) _
    · rw [if_neg hcond]

/-- With zero-duration presence checks, the manual loop ends within its
5-minute window plus one final poll wait. -/
theorem manualLoop_time (o : LoopOracle) (s : Nat)
    (hp : ∀ i, o.presentTime i = 0) :
    ∀ (fuel i now : Nat), s ≤ now → now ≤ s + manualTimeout + manualPollWait →
      (manualLoop o s fuel i now).2 ≤ s + manualTimeout + manualPollWait := by
  intro fuel
  induction fuel with
  | zero => intro i now _ hub; exact hub
  | succ fuel ih =>
    intro i now hlb hub
    simp only [manualLoop]
    by_cases hcond : now - s < manualTimeout
    · rw [if_pos hcond]
      by_cases hpres : o.present i = false
      · rw [if_pos hpres]
        simp only [hp i]
        omega
      · rw [if_neg hpres]
        apply ih
        · simp only [hp i]; omega
        · simp only [hp i, manualPollWait] at *
          omega
    · rw [if_neg hcond]
      exact hub

/-- When every solver invocation throws, the attempt loop never reports
solved. -/
theorem attemptLoop_err (o : LoopOracle) (ty : CaptchaType) (s : Nat)
    (he : ∀ i, o.solves i = SolveOut.err) :
    ∀ (fuel attempt now : Nat) (evs : List LoopEvent),
      (attemptLoop o ty s fuel attempt now evs).1 = false := by
  intro fuel
  induction fuel with
  | zero => intro attempt now evs; rfl
  | succ fuel ih =>
    intro attempt now evs
    simp only [attemptLoop, he attempt]
    by_cases hbr : totalTimeout < now - s
    · rw [if_pos hbr]
    · rw [if_neg hbr]
      by_cases hatt : attempt < maxAttempts
      · rw [if_pos hatt]
        exact ih _ _ _
      · rw [if_neg hatt]
        exact ih _ _ _

/-- Traces in which every dispatch event carries the given type. -/
def dispatchOnly (ty : CaptchaType) (evs : List LoopEvent) : Prop :=
  ∀ a t', LoopEvent.dispatch a t' ∈ evs → t' = ty

/-- dispatchOnly over concatenation. -/
theorem dispatchOnly_append (ty : CaptchaType) (evs extra : List LoopEvent)
    (h1 : dispatchOnly ty evs) (h2 : dispatchOnly ty extra) :
    dispatchOnly ty (evs ++ extra) := by
  intro a t' hm
  rcases List.mem_append.mp hm with h | h
  · exact h1 a t' h
  · exact h2 a t' h

/-- The dispatch the loop emits carries the loop's own type. -/
theorem dispatchOnly_dispatch (ty : CaptchaType) (a : Nat) :
    dispatchOnly ty [LoopEvent.dispatch a ty] := by
  intro a0 t0 hm
  simp only [List.mem_singleton, LoopEvent.dispatch.injEq] at hm
  exact hm.2

/-- Wait and re-detection events carry no dispatch. -/
theorem dispatchOnly_other (ty : CaptchaType) (a : Nat) (ms : Nat)
    (d : Option CaptchaType) :
    dispatchOnly ty [LoopEvent.retryWait a ms, LoopEvent.redetect a d] := by
  intro a0 t0 hm
  simp at hm

/-- Every dispatch the attempt loop ever emits carries the type classified
before the loop: the re-detection of lines 156-159 is recorded but never
changes what is dispatched. -/
theorem attemptLoop_dispatch_ty (o : LoopOracle) (ty : CaptchaType) (s : Nat) :
    ∀ (fuel attempt now : Nat) (evs : List LoopEvent),
      dispatchOnly ty evs →
      dispatchOnly ty (attemptLoop o ty s fuel attempt now evs).2.2 := by
  intro fuel
  induction fuel with
  | zero => intro attempt now evs hevs; exact hevs
  | succ fuel ih =>
    intro attempt now evs hevs
    have hevs1 : dispatchOnly ty (evs ++ [LoopEvent.dispatch attempt ty]) :=
      dispatchOnly_append ty _ _ hevs (dispatchOnly_dispatch ty attempt)
    simp only [attemptLoop]
    by_cases hbr : totalTimeout < now - s
    · rw [if_pos hbr]; exact hevs
    · rw [if_neg hbr]
      rcases hsv : o.solves attempt with b | _
      · cases b
        · simp only []
          by_cases hg : attempt < maxAttempts ∧
              now + o.solveTime attempt - s < totalTimeout - retryInterval
          · rw [if_pos hg]
            by_cases hdt : o.detectThrows attempt = true
            · rw [if_pos hdt]
              exact ih _ _ _ (dispatchOnly_append ty _ _ hevs1
                (by intro a0 t0 hm0; simp at hm0))
            · rw [if_neg hdt]
              exact ih _ _ _ (dispatchOnly_append ty _ _ hevs1
                (dispatchOnly_other ty attempt retryInterval (o.detects attempt)))
          · rw [if_neg hg]
            exact ih _ _ _ hevs1
        · exact hevs1
      · simp only []
        by_cases hatt : attempt < maxAttempts
        · rw [if_pos hatt]
          apply ih
          intro a0 t0 hm
          rcases List.mem_append.mp hm with h | h
          · exact hevs1 a0 t0 h
          · simp at h
        · rw [if_neg hatt]
          exact ih _ _ _ hevs1

/-- The attempt loop adds at most `fuel` dispatches. -/
theorem attemptLoop_countDispatch (o : LoopOracle) (ty : CaptchaType) (s : Nat) :
    ∀ (fuel attempt now : Nat) (evs : List LoopEvent),
      countDispatch (attemptLoop o ty s fuel attempt now evs).2.2
        ≤ countDispatch evs + fuel := by
  intro fuel
  induction fuel with
  | zero => intro attempt now evs; exact Nat.le_add_right _ _
  | succ fuel ih =>
    intro attempt now evs
    have hone : countDispatch (evs ++ [LoopEvent.dispatch attempt ty])
        = countDispatch evs + 1 := by
      simp [countDispatch, List.countP_append]
    simp only [attemptLoop]
    by_cases hbr : totalTimeout < now - s
    · rw [if_pos hbr]; exact Nat.le_add_right _ _
    · rw [if_neg hbr]
      rcases hsv : o.solves attempt with b | _
      · cases b
        · simp only []
          by_cases hg : attempt < maxAttempts ∧
              now + o.solveTime attempt - s < totalTimeout - retryInterval
          · rw [if_pos hg]
            by_cases hdt : o.detectThrows attempt = true
            · rw [if_pos hdt]
              have := ih (attempt + 1)
                (now + o.solveTime attempt + retryInterval + o.detectTime attempt
                  + errorWait)
                ((evs ++ [LoopEvent.dispatch attempt ty]) ++
                  [LoopEvent.retryWait attempt retryInterval,
                    LoopEvent.retryWait attempt errorWait])
              have h2 : countDispatch ((evs ++ [LoopEvent.dispatch attempt ty]) ++
                  [LoopEvent.retryWait attempt retryInterval,
                    LoopEvent.retryWait attempt errorWait])
                  = countDispatch evs + 1 := by
                simp [countDispatch, List.countP_append]
              omega
            · rw [if_neg hdt]
              have := ih (attempt + 1)
                (now + o.solveTime attempt + retryInterval + o.detectTime attempt)
                ((evs ++ [LoopEvent.dispatch attempt ty]) ++
                  [LoopEvent.retryWait attempt retryInterval,
                    LoopEvent.redetect attempt (o.detects attempt)])
              have h2 : countDispatch ((evs ++ [LoopEvent.dispatch attempt ty]) ++
                  [LoopEvent.retryWait attempt retryInterval,
                    LoopEvent.redetect attempt (o.detects attempt)])
                  = countDispatch evs + 1 := by
                simp [countDispatch, List.countP_append]
              omega
          · rw [if_neg hg]
            have := ih (attempt + 1) (now + o.solveTime attempt)
              (evs ++ [LoopEvent.dispatch attempt ty])
            omega
        · simp only [hone]
          omega
      · simp only []
        by_cases hatt : attempt < maxAttempts
        · rw [if_pos hatt]
          have := ih (attempt + 1) (now + o.solveTime attempt + errorWait)
            ((evs ++ [LoopEvent.dispatch attempt ty]) ++
              [LoopEvent.retryWait attempt errorWait])
          have h2 : countDispatch ((evs ++ [LoopEvent.dispatch attempt ty]) ++
              [LoopEvent.retryWait attempt errorWait]) = countDispatch evs + 1 := by
            simp [countDispatch, List.countP_append]
          omega
        · rw [if_neg hatt]
          have := ih (attempt + 1) (now + o.solveTime attempt)
            (evs ++ [LoopEvent.dispatch attempt ty])
          omega

/-- Traces whose wait events use only the two policy intervals. -/
def waitsPolicy (evs : List LoopEvent) : Prop :=
  ∀ a ms, LoopEvent.retryWait a ms ∈ evs → ms = retryInterval ∨ ms = errorWait

/-- Every wait the attempt loop emits is the 25-second retry interval or
the 5-second error wait. -/
theorem attemptLoop_waits (o : LoopOracle) (ty : CaptchaType) (s : Nat) :
    ∀ (fuel attempt now : Nat) (evs : List LoopEvent),
      waitsPolicy evs →
      waitsPolicy (attemptLoop o ty s fuel attempt now evs).2.2 := by
  intro fuel
  induction fuel with
  | zero => intro attempt now evs hevs; exact hevs
  | succ fuel ih =>
    intro attempt now evs hevs
    have hevs1 : waitsPolicy (evs ++ [LoopEvent.dispatch attempt ty]) := by
      intro a0 m0 hm
      rcases List.mem_append.mp hm with h | h
      · exact hevs a0 m0 h
      · simp at h
    simp only [attemptLoop]
    by_cases hbr : totalTimeout < now - s
    · rw [if_pos hbr]; exact hevs
    · rw [if_neg hbr]
      rcases hsv : o.solves attempt with b | _
      · cases b
        · simp only []
          by_cases hg : attempt < maxAttempts ∧
              now + o.solveTime attempt - s < totalTimeout - retryInterval
          · rw [if_pos hg]
            by_cases hdt : o.detectThrows attempt = true
            · rw [if_pos hdt]
              apply ih
              intro a0 m0 hm
              rcases List.mem_append.mp hm with h | h
              · exact hevs1 a0 m0 h
              · simp only [List.mem_cons, List.mem_singleton] at h
                rcases h with h | h | h
                · left
                  exact (LoopEvent.retryWait.injEq _ _ _ _).mp h |>.2
                · right
                  exact (LoopEvent.retryWait.injEq _ _ _ _).mp h |>.2
                · simp at h
            · rw [if_neg hdt]
              apply ih
              intro a0 m0 hm
              rcases List.mem_append.mp hm with h | h
              · exact hevs1 a0 m0 h
              · simp only [List.mem_cons, List.mem_singleton] at h
                rcases h with h | h
                · left
                  exact (LoopEvent.retryWait.injEq _ _ _ _).mp h |>.2
                · simp at h
          · rw [if_neg hg]
            exact ih _ _ _ hevs1
        · exact hevs1
      · simp only []
        by_cases hatt : attempt < maxAttempts
        · rw [if_pos hatt]
          apply ih
          intro a0 m0 hm
          rcases List.mem_append.mp hm with h | h
          · exact hevs1 a0 m0 h
          · simp only [List.mem_singleton] at h
            right
            exact (LoopEvent.retryWait.injEq _ _ _ _).mp h |>.2
        · rw [if_neg hatt]
          exact ih _ _ _ hevs1

/-- With zero-duration solver and detection calls, the attempt loop ends
no later than 120 seconds after its start: an iteration adds at most the
25-second retry wait plus — when the re-detection inside the try throws —
the 5-second error wait of the shared catch, and at most four such
iterations precede attempt 5. -/
theorem attemptLoop_time (o : LoopOracle) (ty : CaptchaType) (s : Nat)
    (hso : ∀ i, o.solveTime i = 0) (hde : ∀ i, o.detectTime i = 0) :
    ∀ (fuel attempt now : Nat) (evs : List LoopEvent),
      1 ≤ attempt →
      now ≤ s + 30000 * (attempt - 1) → now ≤ s + 120000 →
      (attemptLoop o ty s fuel attempt now evs).2.1 ≤ s + 120000 := by
  intro fuel
  induction fuel with
  | zero =>
    intro attempt now evs _ _ hcap
    exact hcap
  | succ fuel ih =>
    intro attempt now evs hpos hinv hcap
    simp only [attemptLoop]
    by_cases hbr : totalTimeout < now - s
    · rw [if_pos hbr]
      exact hcap
    · rw [if_neg hbr]
      rcases hsv : o.solves attempt with b | _
      · cases b
        · simp only [hso attempt, hde attempt]
          by_cases hg : attempt < maxAttempts ∧
              now + 0 - s < totalTimeout - retryInterval
          · rw [if_pos hg]
            by_cases hdt : o.detectThrows attempt = true
            · rw [if_pos hdt]
              apply ih
              · omega
              · have hg1 : attempt < 5 := hg.1
                simp only [retryInterval, errorWait] at hinv ⊢
                omega
              · have hg1 : attempt < 5 := hg.1
                simp only [retryInterval, errorWait] at hinv ⊢
                omega
            · rw [if_neg hdt]
              apply ih
              · omega
              · have hg1 : attempt < 5 := hg.1
                simp only [retryInterval] at hinv ⊢
                omega
              · have hg1 : attempt < 5 := hg.1
                simp only [retryInterval] at hinv ⊢
                omega
          · rw [if_neg hg]
            apply ih
            · omega
            · omega
            · omega
        · simp only [hso attempt]
          show now + 0 ≤ s + 120000
          omega
      · simp only [hso attempt]
        by_cases hatt : attempt < maxAttempts
        · rw [if_pos hatt]
          apply ih
          · omega
          · have hatt5 : attempt < 5 := hatt
            simp only [errorWait] at hinv ⊢
            omega
          · have hatt5 : attempt < 5 := hatt
            simp only [errorWait] at hinv ⊢
            omega
        · rw [if_neg hatt]
          apply ih
          · omega
          · omega
          · omega

/-! ### Claim C1 — stale-type dispatch -/

/-- A run in which the initial classification finds the checkbox, attempt 1
fails, and the re-detection after attempt 1 reports the image challenge. -/
def oracleC1 : LoopOracle where
  detects := fun n =>
    if n = 0 then some CaptchaType.rv2Checkbox else some CaptchaType.rv2Image
  detectTime := fun _ => 0
  detectThrows := fun _ => false
  solves := fun i => if i = 1 then SolveOut.ok false else SolveOut.ok true
  solveTime := fun _ => 0
  present := fun _ => true
  presentTime := fun _ => 0

/-- Counterexample for C1: after the re-detection between attempts reports
that the challenge has morphed into the image challenge, attempt 2 still
dispatches the checkbox solver — the stale type from the initial
classification, not the newly classified type. -/
theorem claim_c1_counterexample :
    (handleCaptcha oracleC1).2.2
      = [LoopEvent.dispatch 1 CaptchaType.rv2Checkbox,
        LoopEvent.retryWait 1 retryInterval,
        LoopEvent.redetect 1 (some CaptchaType.rv2Image),
        LoopEvent.dispatch 2 CaptchaType.rv2Checkbox]
    ∧ CaptchaType.rv2Image ≠ CaptchaType.rv2Checkbox := by
  constructor
  · decide
  · decide

/-- Claim C1 (amended): classification runs once before the loop; the loop
re-runs detection after a failed attempt but only records (logs) the
result — every solver dispatch on every iteration uses the initially
classified type. -/
theorem claim_c1_amended (o : LoopOracle) (ty : CaptchaType)
    (h : o.detects 0 = some ty) :
    ∀ a t', LoopEvent.dispatch a t' ∈ (handleCaptcha o).2.2 → t' = ty := by
  intro a t' hm
  rcases hal : attemptLoop o ty (settleWait + o.detectTime 0) maxAttempts 1
      (settleWait + o.detectTime 0) [] with ⟨b, t, evs⟩
  have hdisp : dispatchOnly ty evs := by
    have hd := attemptLoop_dispatch_ty o ty (settleWait + o.detectTime 0)
      maxAttempts 1 (settleWait + o.detectTime 0) []
      (fun a0 t0 h0 => by simp at h0)
    rw [hal] at hd
    exact hd
  simp only [handleCaptcha, h] at hm
  rw [hal] at hm
  cases b
  · exact hdisp a t' (by simpa using hm)
  · exact hdisp a t' (by simpa using hm)

/-- Witness for C1's amended claim: in the morphing run, the dispatch of
attempt 2 is in the trace and carries the initial type. -/
theorem claim_c1_witness :
    LoopEvent.dispatch 2 CaptchaType.rv2Checkbox ∈ (handleCaptcha oracleC1).2.2
    ∧ CaptchaType.rv2Checkbox = CaptchaType.rv2Checkbox :=
  ⟨by decide,
    claim_c1_amended oracleC1 CaptchaType.rv2Checkbox rfl 2
      CaptchaType.rv2Checkbox (by decide)⟩

/-! ### Claim C6 — error propagation -/

/-- A run in which every solve attempt throws (for example an LLM transport
error inside the solver) and the captcha markup never disappears. -/
def oracleC6 : LoopOracle where
  detects := fun _ => some CaptchaType.rv2Image
  detectTime := fun _ => 0
  detectThrows := fun _ => false
  solves := fun _ => SolveOut.err
  solveTime := fun _ => 0
  present := fun _ => true
  presentTime := fun _ => 0

/-- Counterexample for C6: a transport error in the vision analyzer is
caught and converted into an empty tile list (lines 1123-1126), and a run
whose every attempt throws still returns an ordinary boolean — the catch of
line 162 swallows solver exceptions, including transport errors; nothing is
surfaced to the caller. -/
theorem claim_c6_counterexample :
    analyzeImageChallenge (Except.error ()) 9 = []
    ∧ (handleCaptcha oracleC6).1 = false := by
  constructor
  · rfl
  · decide

/-- Claim C6 (amended): handleCaptcha returns a boolean for every outcome;
exceptions thrown by solve attempts — including LLM transport errors — are
caught by the retry loop and converted into retries and, after the budget,
the manual fallback; and analyzeImageChallenge converts a transport error
into the empty list.  No solver exception propagates to the caller. -/
theorem claim_c6_amended :
    (∀ (e : Unit) (total : Nat), analyzeImageChallenge (Except.error e) total = [])
    ∧ (∀ (o : LoopOracle) (ty : CaptchaType), o.detects 0 = some ty →
        (∀ i, o.solves i = SolveOut.err) → (∀ i, o.present i = true) →
        (handleCaptcha o).1 = false) := by
  constructor
  · intro e total
    rfl
  · intro o ty hdet hsol hpres
    rcases hal : attemptLoop o ty (settleWait + o.detectTime 0) maxAttempts 1
        (settleWait + o.detectTime 0) [] with ⟨b, t, evs⟩
    have hb : b = false := by
      have he := attemptLoop_err o ty (settleWait + o.detectTime 0) hsol
        maxAttempts 1 (settleWait + o.detectTime 0) []
      rw [hal] at he
      exact he
    subst hb
    simp only [handleCaptcha, hdet]
    rw [hal]
    show (waitForManualCompletion o t).1 = false
    exact manualLoop_present o t hpres manualFuel 0 t

/-- Witness for C6's amended claim. -/
theorem claim_c6_witness :
    analyzeImageChallenge (Except.error ()) 16 = []
    ∧ (handleCaptcha ⟨fun _ => some CaptchaType.hcaptcha, fun _ => 0, fun _ => false,
        fun _ => SolveOut.err, fun _ => 0, fun _ => true, fun _ => 0⟩).1 = false :=
  ⟨claim_c6_amended.1 () 16,
    claim_c6_amended.2
      ⟨fun _ => some CaptchaType.hcaptcha, fun _ => 0, fun _ => false,
        fun _ => SolveOut.err, fun _ => 0, fun _ => true, fun _ => 0⟩
      CaptchaType.hcaptcha rfl (fun _ => rfl) (fun _ => rfl)⟩

/-! ### Claim C8 — attempt and time budgets -/

/-- A run whose first solver invocation takes ten minutes of wall-clock
time (an uncancellable in-flight call) and then fails. -/
def oracleC8 : LoopOracle where
  detects := fun _ => some CaptchaType.rv2Checkbox
  detectTime := fun _ => 0
  detectThrows := fun _ => false
  solves := fun _ => SolveOut.ok false
  solveTime := fun i => if i = 1 then 600000 else 0
  present := fun _ => true
  presentTime := fun _ => 0

/-- A run with all-instant external operations in which every attempt
fails and every in-loop re-detection throws: each of the first four
iterations waits 25 s + 5 s, attempt 5 starts exactly at the 2-minute
boundary, and the full manual window follows. -/
def oracleC8instant : LoopOracle where
  detects := fun _ => some CaptchaType.rv2Checkbox
  detectTime := fun _ => 0
  detectThrows := fun _ => true
  solves := fun _ => SolveOut.ok false
  solveTime := fun _ => 0
  present := fun _ => true
  presentTime := fun _ => 0

/-- Counterexample for C8: with one ten-minute in-flight solver call the
run's wall-clock time is 902 seconds, and even with every external
operation instantaneous — four failed attempts whose re-detections throw,
then the manual window — it is 422 seconds; both exceed the sum of the
2-minute automatic and 5-minute manual budgets, since the budgets are only
checked at iteration boundaries, no in-flight operation is cancelled, and
the settle delay and double waits sit outside the claimed sum. -/
theorem claim_c8_counterexample :
    totalTimeout + manualTimeout < (handleCaptcha oracleC8).2.1
    ∧ totalTimeout + manualTimeout < (handleCaptcha oracleC8instant).2.1
    ∧ (handleCaptcha oracleC8instant).2.1 = 422000 := by
  refine ⟨by decide, by decide, by decide⟩

/-- Claim C8 (amended): every run performs at most 5 solver dispatches;
every inter-attempt wait is the fixed 25-second retry interval (after an
ordinary failure) or the 5-second error wait (after a caught throw) — one
iteration can incur both when the re-detection after the retry wait
throws; and when the external operations (detection, solving, presence
checks) take no time, the run ends within the settle delay plus the
2-minute automatic budget plus the 5-minute manual budget plus one manual
poll interval (424 s).  The bare sum of the automatic and manual budgets
(420 s) can be exceeded even by an all-instant run, and in-flight
operation durations add on top without bound. -/
theorem claim_c8_amended :
    (∀ o : LoopOracle, countDispatch (handleCaptcha o).2.2 ≤ maxAttempts)
    ∧ (∀ o : LoopOracle, ∀ a ms,
        LoopEvent.retryWait a ms ∈ (handleCaptcha o).2.2 →
        ms = retryInterval ∨ ms = errorWait)
    ∧ (∀ o : LoopOracle, (∀ i, o.solveTime i = 0) → (∀ i, o.detectTime i = 0) →
        (∀ i, o.presentTime i = 0) →
        (handleCaptcha o).2.1
          ≤ settleWait + totalTimeout + manualTimeout + manualPollWait) := by
  refine ⟨?_, ?_, ?_⟩
  · intro o
    cases hd : o.detects 0 with
    | none => simp [handleCaptcha, hd, countDispatch, maxAttempts]
    | some ty =>
      rcases hal : attemptLoop o ty (settleWait + o.detectTime 0) maxAttempts 1
          (settleWait + o.detectTime 0) [] with ⟨b, t, evs⟩
      have hc := attemptLoop_countDispatch o ty (settleWait + o.detectTime 0)
        maxAttempts 1 (settleWait + o.detectTime 0) []
      rw [hal] at hc
      have hc2 : countDispatch evs ≤ maxAttempts := by
        simpa [countDispatch] using hc
      simp only [handleCaptcha, hd]
      rw [hal]
      cases b
      · exact hc2
      · exact hc2
  · intro o a ms hm
    cases hd : o.detects 0 with
    | none =>
      simp only [handleCaptcha, hd] at hm
      simp at hm
    | some ty =>
      rcases hal : attemptLoop o ty (settleWait + o.detectTime 0) maxAttempts 1
          (settleWait + o.detectTime 0) [] with ⟨b, t, evs⟩
      have hw : waitsPolicy evs := by
        have hwp := attemptLoop_waits o ty (settleWait + o.detectTime 0)
          maxAttempts 1 (settleWait + o.detectTime 0) []
          (fun a0 m0 h0 => by simp at h0)
        rw [hal] at hwp
        exact hwp
      simp only [handleCaptcha, hd] at hm
      rw [hal] at hm
      cases b
      · exact hw a ms (by simpa using hm)
      · exact hw a ms (by simpa using hm)
  · intro o hso hde hpr
    have hs : settleWait + o.detectTime 0 = 2000 := by
      rw [hde 0]
      rfl
    cases hd : o.detects 0 with
    | none =>
      simp only [handleCaptcha, hd]
      rw [hs]
      simp [settleWait, totalTimeout, manualTimeout, manualPollWait]
    | some ty =>
      rcases hal : attemptLoop o ty (settleWait + o.detectTime 0) maxAttempts 1
          (settleWait + o.detectTime 0) [] with ⟨b, t, evs⟩
      have ht : t ≤ settleWait + o.detectTime 0 + 120000 := by
        have hb := attemptLoop_time o ty (settleWait + o.detectTime 0) hso hde
          maxAttempts 1 (settleWait + o.detectTime 0) [] (by omega)
          (by simp) (by omega)
        rw [hal] at hb
        exact hb
      simp only [handleCaptcha, hd]
      rw [hal]
      cases b
      · show (waitForManualCompletion o t).2
          ≤ settleWait + totalTimeout + manualTimeout + manualPollWait
        have hm := manualLoop_time o t hpr manualFuel 0 t (Nat.le_refl t) (by omega)
        rw [hs] at ht
        simp only [waitForManualCompletion]
        simp only [settleWait, totalTimeout, manualTimeout, manualPollWait] at *
        omega
      · show t ≤ settleWait + totalTimeout + manualTimeout + manualPollWait
        rw [hs] at ht
        simp only [settleWait, totalTimeout, manualTimeout, manualPollWait]
        omega

/-- Witness for C8's amended claim: a zero-duration run with five failing
attempts and persistent markup stays within the settle delay, the two
budgets and one poll interval. -/
theorem claim_c8_witness :
    (handleCaptcha ⟨fun _ => some CaptchaType.rv2Checkbox, fun _ => 0, fun _ => false,
        fun _ => SolveOut.ok false, fun _ => 0, fun _ => true, fun _ => 0⟩).2.1
      ≤ settleWait + totalTimeout + manualTimeout + manualPollWait :=
  claim_c8_amended.2.2
    ⟨fun _ => some CaptchaType.rv2Checkbox, fun _ => 0, fun _ => false,
      fun _ => SolveOut.ok false, fun _ => 0, fun _ => true, fun _ => 0⟩
    (fun _ => rfl) (fun _ => rfl) (fun _ => rfl)

end BrowserAutomation
